import Mathlib

/-
Verification of the crash-consistent persistence core of the gDocs spreadsheet
backend (sheet checkpoint + write-ahead log, consistency check, commit, recovery,
commit-on-evict cache, and the dao file layer).

Shallow embedding conventions:
  * Go structs become Lean structures; Go `uint` becomes `Nat`, Go `int` becomes `Int`.
  * The distributed file store underneath the dao layer is external to the
    repository, so the state a document sees on disk is modelled explicitly by
    `FidDisk`: the raw directory listings of `log/` and `checkpoint/` plus, for
    each file number, the decoded record sequence (`none` models a file that is
    missing or unreadable, matching the error branch of the dao getters).
    Spec 9 records that the source `DirFileNamesAll` returns an empty listing
    for every directory (a source bug, settled separately below); the
    persistence-manager functions are therefore embedded against the listing the
    directory actually holds, with `sort.Strings` (ascending lexicographic
    order) embedded faithfully as `sortStrings`.
  * The cache library (backend/lib/cache: `MemSheet`, `MemCache`) is not part of
    the given sources; those operations are modelled from the spec and are
    marked as such in their doc comments.
  * Functions that in Go mutate the store are state transformers on `FidDisk`
    (or `SysState` for multi-document operations); Go code that only logs an
    error and continues is embedded as continuing with the state unchanged.
  * The `Timestamp` field of a checkpoint record is omitted: no function of the
    sources ever reads it, and its value is wall-clock nondeterminism.
-/

def minRows : Nat := 10

def minCols : Nat := 10

/-- Log entry record (gdocFS.SheetLogPickle): a cell mutation `{lid,row,col,old,new}`
or, with `row = col = -1` and the other fields at their zero values, the commit
marker. `Lid` is a Go `uint`, `Row`/`Col` are Go `int`. -/
structure SheetLogPickle where
  lid : Nat
  row : Int
  col : Int
  old : String
  new : String
deriving DecidableEq

/-- The commit-marker sentinel `logCommitEntry` (src part_000 lines 22-26):
`Row = -1, Col = -1`, remaining fields at their Go zero values. Go compares
structs field-by-field, hence the full record matters for `!=` below. -/
def logCommitEntry : SheetLogPickle :=
  { lid := 0, row := -1, col := -1, old := "", new := "" }

/-- Checkpoint record (gdocFS.SheetCheckPointPickle) without the never-read
`Timestamp` field. `Cid` is a Go `uint`; `Rows`/`Columns` are Go `int`. -/
structure SheetCheckPointPickle where
  cid : Nat
  rows : Int
  columns : Int
  content : List String
deriving DecidableEq

/-- The on-disk state of one document as seen through the dao layer:
raw directory listings of `log/` and `checkpoint/`, the decoded content of each
numbered log file and checkpoint file (`none` = missing or unreadable, the error
branch of `sheetGetPickledLogFromDfs` / `sheetGetPickledCheckPointFromDfs`), and
a fault-injection flag making checkpoint-file creation fail. -/
structure FidDisk where
  logNames : List String
  chkpNames : List String
  logs : Nat → Option (List SheetLogPickle)
  chkps : Nat → Option SheetCheckPointPickle
  chkpCreateFails : Bool

/-- Lexicographic order on character lists by code point; on the ASCII decimal
filenames involved here this is exactly the byte-wise order Go `sort.Strings`
uses. -/
def charListLt : List Char → List Char → Bool
  | [], [] => false
  | [], _ :: _ => true
  | _ :: _, [] => false
  | a :: as, b :: bs =>
    if a.toNat < b.toNat then true
    else if b.toNat < a.toNat then false
    else charListLt as bs

/-- Lexicographic order on strings, via their character lists. -/
def strLtB (s t : String) : Bool :=
  charListLt s.data t.data

/-- Insertion step of `sortStrings`, keeping the list in ascending order. -/
def strInsert (s : String) : List String → List String
  | [] => [s]
  | t :: ts => if strLtB s t then s :: t :: ts else t :: strInsert s ts

/-- Embedding of Go `sort.Strings` as used by `DirFilenamesAllSorted`
(src part_000 lines 461-470): ascending lexicographic order on the names. -/
def sortStrings : List String → List String
  | [] => []
  | s :: ss => strInsert s (sortStrings ss)

/-- Outcome of `SheetFSCheck`: success with `(cid, lid)`, the
`SheetFSUnrecoverableErr` error, or a Go runtime panic (indexing
`logs[len(logs)-1]` when a log file decodes to an empty slice). -/
inductive ChkResult where
  | ok (cid lid : Nat)
  | unrecoverable
  | panicked
deriving DecidableEq

/-- Condition of the entry-validation loop (src part_000 lines 69-74):
an entry is rejected when `log.Lid != curLid || log.Row <= 0 || log.Col <= 0`. -/
def sheetLogInvalid (curLid : Nat) (e : SheetLogPickle) : Bool :=
  e.lid != curLid || decide (e.row ≤ 0) || decide (e.col ≤ 0)

/-- Log-directory loop of `SheetFSCheck` (src part_000 lines 49-77), iterating
over the sorted listing with `expect` the 0-based position. `some r` is an early
`return`, `none` means the loop ran to completion. In thorough mode the entry
validation runs only inside the branch where the last decoded entry is not the
commit marker, exactly as in the source. -/
def sheetChkLogLoop (fullChk : Bool) (d : FidDisk) (expectLid : Nat) :
    Nat → List String → Option ChkResult
  | _, [] => none
  | expect, actual :: rest =>
    let curLid := expect + 1
    if toString curLid ≠ actual then some ChkResult.unrecoverable
    else
      if fullChk then
        match d.logs curLid with
        | none => some ChkResult.unrecoverable
        | some logs =>
          if logs.isEmpty then some ChkResult.panicked
          else if logs.getLastD logCommitEntry ≠ logCommitEntry then
            if curLid = expectLid then
              if logs.any (sheetLogInvalid curLid) then some ChkResult.unrecoverable
              else sheetChkLogLoop fullChk d expectLid (expect + 1) rest
            else some ChkResult.unrecoverable
          else sheetChkLogLoop fullChk d expectLid (expect + 1) rest
      else sheetChkLogLoop fullChk d expectLid (expect + 1) rest

/-- Brief-mode tail of `SheetFSCheck` (src part_000 lines 78-85): read the last
log; a read/decode error is unrecoverable; an empty decoded log panics on
`logs[len(logs)-1]`; otherwise nothing happens (the seal of an uncommitted last
log is a TODO in the source). -/
def sheetChkBrief (d : FidDisk) (expectLid : Nat) : Option ChkResult :=
  match d.logs expectLid with
  | none => some ChkResult.unrecoverable
  | some logs => if logs.isEmpty then some ChkResult.panicked else none

/-- Checkpoint-directory loop of `SheetFSCheck` (src part_000 lines 94-109). -/
def sheetChkChkpLoop (fullChk : Bool) (d : FidDisk) :
    Nat → List String → Option ChkResult
  | _, [] => none
  | expect, actual :: rest =>
    let curCid := expect + 1
    if toString curCid ≠ actual then some ChkResult.unrecoverable
    else
      if fullChk then
        match d.chkps curCid with
        | none => some ChkResult.unrecoverable
        | some chkp =>
          if chkp.cid ≠ curCid ∨ chkp.rows ≤ 0 ∨ chkp.columns ≤ 0 then
            some ChkResult.unrecoverable
          else sheetChkChkpLoop fullChk d (expect + 1) rest
      else sheetChkChkpLoop fullChk d (expect + 1) rest

/-- Embedding of `SheetFSCheck` (src part_000 lines 38-118). The function only
reads: every recovery action in the source is a TODO comment, so no branch
writes to the store, and the embedding returns an outcome without a new state.
The directory listings are the environment-held names sorted by `sort.Strings`
(see the module comment on the dao listing bug, settled separately). -/
def SheetFSCheck (d : FidDisk) (fullChk : Bool) : ChkResult :=
  let logFileNames := sortStrings d.logNames
  let expectLid := logFileNames.length
  match sheetChkLogLoop fullChk d expectLid 0 logFileNames with
  | some r => r
  | none =>
    match (if fullChk then none else sheetChkBrief d expectLid) with
    | some r => r
    | none =>
      let chkpFileNames := sortStrings d.chkpNames
      let expectCid := chkpFileNames.length
      match sheetChkChkpLoop fullChk d 0 chkpFileNames with
      | some r => r
      | none =>
        if expectCid + 1 ≠ expectLid then ChkResult.unrecoverable
        else ChkResult.ok expectCid expectLid

/-- A single valid mutation entry for log file 1. -/
def mutOneOneA : SheetLogPickle :=
  { lid := 1, row := 1, col := 1, old := "", new := "A" }

/-- Layout for the unsealed-last-log scenario: `C = 0`, `L = 1`, and `log/1`
decodes to a single mutation with no trailing commit marker. -/
def envUnsealedLast : FidDisk where
  logNames := ["1"]
  chkpNames := []
  logs := fun n => if n = 1 then some [mutOneOneA] else none
  chkps := fun _ => none
  chkpCreateFails := false

/-- C1: the claim fails on the code. On a layout whose last log `log/1` decodes
successfully but does not end in the commit marker, `SheetFSCheck` nevertheless
returns `(C, L) = (0, 1)` in both thorough and brief mode. The source performs
no write anywhere in `SheetFSCheck` (the seal is the TODO at part_000 lines 63
and 83), so after the successful return `log/1` still does not end in a commit
marker. -/
theorem check_returns_ok_without_sealing_last_log :
    SheetFSCheck envUnsealedLast true = ChkResult.ok 0 1 ∧
    SheetFSCheck envUnsealedLast false = ChkResult.ok 0 1 ∧
    envUnsealedLast.logs 1 = some [mutOneOneA] ∧
    mutOneOneA ≠ logCommitEntry := by decide

/-- Layout for the post-checkpoint transient: `C = 2`, `L = 2`, `log/2` sealed,
`log/3` missing — exactly the state left by a crash between checkpoint creation
and next-log creation during a commit. -/
def envTransientLC : FidDisk where
  logNames := ["1", "2"]
  chkpNames := ["1", "2"]
  logs := fun n =>
    if n = 1 then some [logCommitEntry]
    else if n = 2 then some [logCommitEntry]
    else none
  chkps := fun n =>
    if n = 1 then some { cid := 1, rows := 10, columns := 10, content := [] }
    else if n = 2 then some { cid := 2, rows := 10, columns := 10, content := [] }
    else none
  chkpCreateFails := false

/-- C2: the claim fails on the code. In the transient state `L = C` (here
`C = L = 2`, `log/2` sealed, `log/3` missing) `SheetFSCheck` returns
`Unrecoverable` in both modes; the source has no branch creating the missing
`log/L+1` (the repair is the TODO at part_000 line 113). -/
theorem check_rejects_post_checkpoint_transient :
    SheetFSCheck envTransientLC true = ChkResult.unrecoverable ∧
    SheetFSCheck envTransientLC false = ChkResult.unrecoverable ∧
    (envTransientLC.logs 2).getD [] ≠ [] ∧
    ((envTransientLC.logs 2).getD []).getLastD logCommitEntry = logCommitEntry ∧
    envTransientLC.logs 3 = none := by decide

/-- A mutation entry whose `lid` field (99) violates `lid = 1` for `log/1`. -/
def mutBadLid : SheetLogPickle :=
  { lid := 99, row := 1, col := 1, old := "", new := "B" }

/-- Layout with a sealed `log/1` containing an invalid mutation entry
(`lid = 99` inside `log/1`), a sealed empty-of-mutations `log/2`, and a valid
`checkpoint/1`: a consistent shape (`L = C + 1 = 2`) apart from the bad entry. -/
def envBadSealedEntry : FidDisk where
  logNames := ["1", "2"]
  chkpNames := ["1"]
  logs := fun n =>
    if n = 1 then some [mutBadLid, logCommitEntry]
    else if n = 2 then some [logCommitEntry]
    else none
  chkps := fun n =>
    if n = 1 then some { cid := 1, rows := 10, columns := 10, content := [] }
    else none
  chkpCreateFails := false

/-- C6: the claim fails on the code. In thorough mode the entry-validation loop
of `SheetFSCheck` is nested inside the branch taken only when the log does not
end in the commit marker (part_000 lines 61-75), so a sealed log is never
validated: with the invalid entry `lid = 99` sitting in the sealed `log/1`,
thorough `SheetFSCheck` still returns `(1, 2)` instead of `Unrecoverable`. -/
theorem thorough_check_skips_sealed_log_validation :
    SheetFSCheck envBadSealedEntry true = ChkResult.ok 1 2 ∧
    envBadSealedEntry.logs 1 = some [mutBadLid, logCommitEntry] ∧
    sheetLogInvalid 1 mutBadLid = true := by decide

/-- Layout with a dense log directory `1..10` (no holes) and `log/1` sealed;
one checkpoint directory entry so that nothing else is at fault. -/
def envDenseTen : FidDisk where
  logNames := ["1", "2", "3", "4", "5", "6", "7", "8", "9", "10"]
  chkpNames := ["1", "2", "3", "4", "5", "6", "7", "8", "9"]
  logs := fun n => if 1 ≤ n ∧ n ≤ 10 then some [logCommitEntry] else none
  chkps := fun n =>
    if 1 ≤ n ∧ n ≤ 9 then some { cid := n, rows := 10, columns := 10, content := [] }
    else none
  chkpCreateFails := false

/-- C7: the claim fails on the code. For the dense layout `log/1..log/10` the
lexicographically sorted listing is `["1","10","2",...,"9"]`, and the
dense-numbering check compares the 2nd entry `"10"` against `Itoa 2 = "2"`
without converting to integers, so `SheetFSCheck` spuriously returns
`Unrecoverable` in both modes even though the numbering has no hole. -/
theorem dense_check_rejects_ten_logs :
    sortStrings envDenseTen.logNames =
      ["1", "10", "2", "3", "4", "5", "6", "7", "8", "9"] ∧
    SheetFSCheck envDenseTen true = ChkResult.unrecoverable ∧
    SheetFSCheck envDenseTen false = ChkResult.unrecoverable := by decide

/-- Modelled from the spec: the in-memory sheet of the cache library
(backend/lib/cache MemSheet, not in src/). Spec 3: a grid of cells indexed
1-based by (row, col); each cell an opaque string, empty string = unset.
Represented row-major as a list of rows. -/
structure MemSheet where
  cells : List (List String)
deriving DecidableEq

/-- Row count of the grid. -/
def MemSheet.rowsCount (ms : MemSheet) : Nat :=
  ms.cells.length

/-- Column count of the grid (rows are kept rectangular). -/
def MemSheet.colsCount (ms : MemSheet) : Nat :=
  (ms.cells.headD []).length

/-- Extend a list to length `n` with copies of `dflt` (no-op when already long
enough). -/
def padTo {α : Type} (n : Nat) (dflt : α) (l : List α) : List α :=
  l ++ List.replicate (n - l.length) dflt

/-- Modelled from the spec: MemSheet.Set (cache library, not in src/).
Spec 3: cells are 1-based and the grid grows as needed but never shrinks;
recovery applies `sheet[row, col] := new`. Out-of-range (non-positive)
coordinates leave the sheet unchanged. -/
def MemSheet.Set (ms : MemSheet) (row col : Int) (v : String) : MemSheet :=
  if row < 1 ∨ col < 1 then ms
  else
    let r := row.toNat - 1
    let c := col.toNat - 1
    let nRows := max ms.rowsCount (r + 1)
    let nCols := max ms.colsCount (c + 1)
    let grown := (padTo nRows [] ms.cells).map (padTo nCols "")
    { cells := grown.set r ((grown.getD r []).set c v) }

/-- Modelled from the spec: MemSheet.Shape (cache library, not in src/) —
the current (rows, cols) of the grid, as Go ints. -/
def MemSheet.Shape (ms : MemSheet) : Int × Int :=
  (ms.rowsCount, ms.colsCount)

/-- Modelled from the spec: MemSheet.ToStringSlice (cache library, not in
src/) — the row-major materialization of the grid (spec 3, checkpoint content). -/
def MemSheet.ToStringSlice (ms : MemSheet) : List String :=
  ms.cells.flatten

/-- Modelled from the spec: cache.NewMemSheet (cache library, not in src/) —
an empty sheet of the given shape, every cell unset. -/
def NewMemSheet (rows cols : Nat) : MemSheet :=
  { cells := List.replicate rows (List.replicate cols "") }

/-- Modelled from the spec: cache.NewMemSheetFromStringSlice (cache library,
not in src/) — materialize a sheet from a row-major content slice with the
stored column count; the row count follows (spec 4.3.3 step 3). -/
def NewMemSheetFromStringSlice (content : List String) (columns : Int) : MemSheet :=
  let c := columns.toNat
  if c = 0 then { cells := [] }
  else
    { cells :=
        (List.range (content.length / c)).map fun r =>
          (List.range c).map fun j => content.getD (r * c + j) "" }

/-- Go strconv digit value of a character, `none` for a non-digit. -/
def charDigit (c : Char) : Option Nat :=
  if 48 ≤ c.toNat ∧ c.toNat ≤ 57 then some (c.toNat - 48) else none

/-- Embedding of strconv.Atoi restricted to the unsigned decimals used as
filenames: the value of a nonempty all-digit string, `none` otherwise
(Atoi errors on the empty string and on any non-digit). -/
def decDigitsVal : List Char → Option Nat
  | [] => none
  | cs =>
    cs.foldl
      (fun acc c =>
        match acc, charDigit c with
        | some n, some d => some (n * 10 + d)
        | _, _ => none)
      (some 0)

/-- Characters before the first dot: strings.Split(name, ".")[0]. -/
def upToDot (cs : List Char) : List Char :=
  cs.takeWhile fun c => c.toNat ≠ 46

/-- Embedding of sheetGetCheckPointNum (src part_000 lines 271-294): list the
checkpoint directory sorted, take the lexicographically last name, parse its
integer prefix before any dot; on a parse failure fall back to the number of
children; otherwise return the parsed number even when it disagrees with the
number of children (the source only logs the discrepancy). -/
def sheetGetCheckPointNum (d : FidDisk) : Nat :=
  let fileNames := sortStrings d.chkpNames
  match fileNames.getLast? with
  | none => 0
  | some latestChkpName =>
    match decDigitsVal (upToDot latestChkpName.data) with
    | none => fileNames.length
    | some chkpNum => chkpNum

/-- Modelled from the spec: the sheet cache (backend/lib/cache MemCache, not in
src/). Spec 4.4: a bounded-capacity map from fid to in-memory sheet with
LRU-like eviction; entries are kept most-recent first. -/
structure SheetCache where
  capacity : Nat
  entries : List (Nat × MemSheet)

/-- Resident sheet for a fid, if any. -/
def SheetCache.lookup (c : SheetCache) (fid : Nat) : Option MemSheet :=
  (c.entries.find? fun p => p.1 == fid).map fun p => p.2

/-- Modelled from the spec: MemCache.Add (cache library, not in src/).
Spec 4.4: insert (fid, sheet); if fid is already present return its existing
sheet (first component) and drop the caller's copy; otherwise insert and, if
capacity is exceeded, evict the coldest entries, returning their keys and
sheets. The cache itself never commits evicted sheets. -/
def SheetCache.Add (c : SheetCache) (fid : Nat) (ms : MemSheet) :
    Option MemSheet × List Nat × List MemSheet × SheetCache :=
  match c.lookup fid with
  | some existing => (some existing, [], [], c)
  | none =>
    let inserted := (fid, ms) :: c.entries
    let kept := inserted.take c.capacity
    let evicted := inserted.drop c.capacity
    (none, evicted.map (fun p => p.1), evicted.map (fun p => p.2),
      { c with entries := kept })

/-- The global mutable state touched by the service layer: the per-document
disk states and the sheet cache. -/
structure SysState where
  disk : Nat → FidDisk
  cache : SheetCache

/-- Pointwise update of the disk map at one fid. -/
def updateDisk (f : Nat → FidDisk) (fid : Nat) (d : FidDisk) : Nat → FidDisk :=
  fun n => if n = fid then d else f n

/-- The checkpoint record commit writes (src part_000 lines 147-153): Cid,
Rows/Columns from memSheet.Shape(), Content from memSheet.ToStringSlice()
(Timestamp omitted, see the module comment). -/
def mkCommitChkp (cid : Nat) (ms : MemSheet) : SheetCheckPointPickle :=
  { cid := cid, rows := ms.rowsCount, columns := ms.colsCount,
    content := ms.ToStringSlice }

/-- Embedding of sheetCreatePickledCheckPointInDfs (src part_000 lines 241-249):
exclusive creation of checkpoint file `cid` followed by writing the record.
Failure (fault-injected, or the file already exists) leaves the state
unchanged; the caller only logs it. On success the checkpoint directory gains
the file's name. -/
def sheetCreatePickledCheckPointInDfs (d : FidDisk) (cid : Nat)
    (chkp : SheetCheckPointPickle) : FidDisk :=
  if d.chkpCreateFails ∨ (d.chkps cid).isSome then d
  else
    { d with
      chkps := fun n => if n = cid then some chkp else d.chkps n
      chkpNames := d.chkpNames ++ [toString cid] }

/-- Embedding of appendOneSheetLog (src part_000 lines 120-128): FileAppend of
one encoded entry to log file `lid`. Appending to a missing file fails at Stat
and is only logged, leaving the state unchanged. -/
def appendOneSheetLog (d : FidDisk) (lid : Nat) (e : SheetLogPickle) : FidDisk :=
  match d.logs lid with
  | none => d
  | some l =>
    { d with logs := fun n => if n = lid then some (l ++ [e]) else d.logs n }

/-- Embedding of sheetCreateLogFile (src part_000 lines 307-315): create an
empty log file `lid`. Creation of an already-existing file fails and is only
logged, leaving the state unchanged; on success the log directory gains the
file's name. -/
def sheetCreateLogFile (d : FidDisk) (lid : Nat) : FidDisk :=
  if (d.logs lid).isSome then d
  else
    { d with
      logs := fun n => if n = lid then some [] else d.logs n
      logNames := d.logNames ++ [toString lid] }

/-- Embedding of commitOneSheetWithCache (src part_000 lines 130-168).
The early return translates the source's

  if logs, err := sheetGetPickledLogFromDfs(fid, lid); err != nil {
      if len(logs) == 0 { return curCid }
  }

both dao error paths hand back a nil slice together with the error, so the
read-error branch (`d.logs lid = none`) returns `curCid`; a log that DECODES to
an empty sequence takes the `err == nil` path and falls through to write a new
checkpoint. After that: write checkpoint curCid+1 (failure only logged), append
the commit entry to log curCid+1, create log curCid+2, return curCid+1. -/
def commitOneSheetWithCache (st : SysState) (fid : Nat) (ms : MemSheet) :
    Nat × SysState :=
  let d := st.disk fid
  let curCid := sheetGetCheckPointNum d
  let lid := curCid + 1
  match d.logs lid with
  | none => (curCid, st)
  | some _ =>
    let cid := curCid + 1
    let d1 := sheetCreatePickledCheckPointInDfs d cid (mkCommitChkp cid ms)
    let d2 := appendOneSheetLog d1 lid logCommitEntry
    let d3 := sheetCreateLogFile d2 (lid + 1)
    (cid, { st with disk := updateDisk st.disk fid d3 })

/-- Embedding of commitSheetsWithCache (src part_000 lines 170-175): commit the
paired (fid, memSheet) lists element by element, in order. -/
def commitSheetsWithCache (st : SysState) (fids : List Nat)
    (memSheets : List MemSheet) : SysState :=
  (fids.zip memSheets).foldl (fun s p => (commitOneSheetWithCache s p.1 p.2).2) st

/-- Embedding of the sheet-construction part of recoverSheetFromLog
(src part_000 lines 181-207): base sheet from scratch when no checkpoint
exists, otherwise from checkpoint curCid materialized with the stored column
count; then redo of every entry of log curCid+1 except the last
(`for li := 0; li < len(logs)-1`), each applied as Set(Row, Col, New).
`none` is the `return nil, false` error path of the source. -/
def recoverBuildSheet (d : FidDisk) : Option MemSheet :=
  let curCid := sheetGetCheckPointNum d
  let base :=
    if curCid = 0 then some (NewMemSheet minRows minCols)
    else
      match d.chkps curCid with
      | none => none
      | some chkp => some (NewMemSheetFromStringSlice chkp.content chkp.columns)
  match base with
  | none => none
  | some memSheet =>
    match d.logs (curCid + 1) with
    | none => none
    | some logs =>
      some (logs.dropLast.foldl (fun s e => s.Set e.row e.col e.new) memSheet)

/-- Embedding of recoverSheetFromLog (src part_000 lines 181-217). After the
sheet is rebuilt it is admitted to the cache; when Add hands back a
pre-existing sheet the source commits the (then empty) eviction list and
returns that sheet with inCache = true; when Add inserted the fresh sheet the
source returns it with inCache = false WITHOUT committing whatever Add just
evicted. -/
def recoverSheetFromLog (st : SysState) (fid : Nat) :
    Option (MemSheet × Bool) × SysState :=
  match recoverBuildSheet (st.disk fid) with
  | none => (none, st)
  | some memSheet =>
    match st.cache.Add fid memSheet with
    | (some ms, keys, evicted, cacheA) =>
      let st1 : SysState := { st with cache := cacheA }
      (some (ms, true), commitSheetsWithCache st1 keys evicted)
    | (none, _, _, cacheA) =>
      (some (memSheet, false), { st with cache := cacheA })

/-- A one-cell sheet standing in for live in-memory state during commits. -/
def msOneCell : MemSheet := { cells := [["x"]] }

/-- Document layout with one checkpoint and an active log `log/2` that exists
and decodes to the empty sequence — the clean state right after a commit. -/
def envEmptyActiveLog : FidDisk where
  logNames := ["1", "2"]
  chkpNames := ["1"]
  logs := fun n =>
    if n = 1 then some [logCommitEntry]
    else if n = 2 then some [] else none
  chkps := fun n =>
    if n = 1 then some { cid := 1, rows := 1, columns := 1, content := ["x"] }
    else none
  chkpCreateFails := false

/-- System state holding the clean one-checkpoint layout for every fid. -/
def stEmptyActive : SysState where
  disk := fun _ => envEmptyActiveLog
  cache := { capacity := 1, entries := [] }

/-- C3: the claim fails on the code. With `C = 1` and the active `log/2`
decoding to the empty sequence, Commit does not short-circuit: the source's
empty-log test sits inside the `err != nil` branch (part_000 lines 138-142),
so an error-free empty read falls through, writes `checkpoint/2`, appends the
commit marker to `log/2`, creates `log/3`, and returns `2` instead of `1`. -/
theorem commit_on_empty_log_still_writes :
    (stEmptyActive.disk 7).logs 2 = some [] ∧
    (commitOneSheetWithCache stEmptyActive 7 msOneCell).1 = 2 ∧
    ((commitOneSheetWithCache stEmptyActive 7 msOneCell).2.disk 7).chkps 2 =
      some (mkCommitChkp 2 msOneCell) ∧
    ((commitOneSheetWithCache stEmptyActive 7 msOneCell).2.disk 7).logs 2 =
      some [logCommitEntry] ∧
    ((commitOneSheetWithCache stEmptyActive 7 msOneCell).2.disk 7).logs 3 =
      some [] := by decide

/-- C10: proved. When checkpoint-file creation fails during Commit (fault
flag set), commitOneSheetWithCache neither aborts nor rolls back: the
checkpoint map is left exactly as it was, yet the commit marker is still
appended to log curCid+1, the empty log curCid+2 is still created, and
curCid+1 is still returned — the failure is only logged
(src part_000 lines 147-155). -/
theorem commit_survives_checkpoint_create_failure
    (st : SysState) (fid : Nat) (ms : MemSheet) (l : List SheetLogPickle)
    (hfail : (st.disk fid).chkpCreateFails = true)
    (hlog : (st.disk fid).logs (sheetGetCheckPointNum (st.disk fid) + 1) = some l)
    (hnext : (st.disk fid).logs (sheetGetCheckPointNum (st.disk fid) + 2) = none) :
    (commitOneSheetWithCache st fid ms).1 =
      sheetGetCheckPointNum (st.disk fid) + 1 ∧
    ((commitOneSheetWithCache st fid ms).2.disk fid).chkps =
      (st.disk fid).chkps ∧
    ((commitOneSheetWithCache st fid ms).2.disk fid).logs
      (sheetGetCheckPointNum (st.disk fid) + 1) = some (l ++ [logCommitEntry]) ∧
    ((commitOneSheetWithCache st fid ms).2.disk fid).logs
      (sheetGetCheckPointNum (st.disk fid) + 2) = some [] := by
  set d := st.disk fid with hd
  set c := sheetGetCheckPointNum d with hc
  simp only [commitOneSheetWithCache, ← hd, ← hc, hlog,
    sheetCreatePickledCheckPointInDfs, hfail, true_or, if_true,
    appendOneSheetLog, sheetCreateLogFile, updateDisk]
  simp [hlog, hnext]

/-- A pending (uncommitted) mutation sitting in the active log `log/2`. -/
def mutPending : SheetLogPickle :=
  { lid := 2, row := 3, col := 4, old := "", new := "v" }

/-- Layout with one checkpoint, a non-empty active `log/2`, no `log/3`, and
checkpoint creation set to fail. -/
def envChkpFail : FidDisk where
  logNames := ["1", "2"]
  chkpNames := ["1"]
  logs := fun n =>
    if n = 1 then some [logCommitEntry]
    else if n = 2 then some [mutPending] else none
  chkps := fun n =>
    if n = 1 then some { cid := 1, rows := 1, columns := 1, content := ["x"] }
    else none
  chkpCreateFails := true

/-- System state for the checkpoint-creation-failure scenario. -/
def stChkpFail : SysState where
  disk := fun _ => envChkpFail
  cache := { capacity := 1, entries := [] }

/-- Witness for C10 at the concrete failure layout: the hypotheses hold there
and the theorem yields the conclusion. -/
theorem commit_survives_checkpoint_create_failure_witness :
    (stChkpFail.disk 4).chkpCreateFails = true ∧
    (stChkpFail.disk 4).logs (sheetGetCheckPointNum (stChkpFail.disk 4) + 1) =
      some [mutPending] ∧
    (stChkpFail.disk 4).logs (sheetGetCheckPointNum (stChkpFail.disk 4) + 2) =
      none ∧
    ((commitOneSheetWithCache stChkpFail 4 msOneCell).1 =
        sheetGetCheckPointNum (stChkpFail.disk 4) + 1 ∧
      ((commitOneSheetWithCache stChkpFail 4 msOneCell).2.disk 4).chkps =
        (stChkpFail.disk 4).chkps ∧
      ((commitOneSheetWithCache stChkpFail 4 msOneCell).2.disk 4).logs
        (sheetGetCheckPointNum (stChkpFail.disk 4) + 1) =
          some ([mutPending] ++ [logCommitEntry]) ∧
      ((commitOneSheetWithCache stChkpFail 4 msOneCell).2.disk 4).logs
        (sheetGetCheckPointNum (stChkpFail.disk 4) + 2) = some []) :=
  ⟨rfl, by decide, by decide,
    commit_survives_checkpoint_create_failure stChkpFail 4 msOneCell
      [mutPending] rfl (by decide) (by decide)⟩

/-- C5: proved. recoverSheetFromLog builds the sheet exactly as claimed: the
base is the empty (minRows, minCols) sheet when the checkpoint count is 0 and
otherwise the materialization of checkpoint curCid from its content with the
stored column count; given that log curCid+1 is sealed (its entries are the
logged mutations followed by the commit marker), the built sheet is the base
with every logged mutation redone in append order via Set(row, col, new) —
the old field is never consulted. -/
theorem recover_rebuilds_checkpoint_plus_redo
    (d : FidDisk) (muts : List SheetLogPickle) (base : MemSheet)
    (hlog : d.logs (sheetGetCheckPointNum d + 1) = some (muts ++ [logCommitEntry]))
    (hbase :
      (sheetGetCheckPointNum d = 0 ∧ base = NewMemSheet minRows minCols) ∨
      (∃ chkp, sheetGetCheckPointNum d ≠ 0 ∧
        d.chkps (sheetGetCheckPointNum d) = some chkp ∧
        base = NewMemSheetFromStringSlice chkp.content chkp.columns)) :
    recoverBuildSheet d =
      some (muts.foldl (fun s e => s.Set e.row e.col e.new) base) := by
  rcases hbase with ⟨h0, hb⟩ | ⟨chkp, h0, hchkp, hb⟩
  · rw [h0] at hlog
    rw [hb]
    simp [recoverBuildSheet, h0, hlog, List.dropLast_concat]
  · rw [hb]
    simp [recoverBuildSheet, h0, hchkp, hlog, List.dropLast_concat]

/-- A logged mutation used by the recovery witness. -/
def mutRecov : SheetLogPickle :=
  { lid := 1, row := 2, col := 3, old := "", new := "r" }

/-- Fresh-document layout: no checkpoints, `log/1` sealed after one mutation. -/
def envRecFresh : FidDisk where
  logNames := ["1"]
  chkpNames := []
  logs := fun n => if n = 1 then some [mutRecov, logCommitEntry] else none
  chkps := fun _ => none
  chkpCreateFails := false

/-- Witness for C5 at the fresh-document layout: the hypotheses hold there and
the theorem yields the rebuilt sheet. -/
theorem recover_rebuilds_checkpoint_plus_redo_witness :
    envRecFresh.logs (sheetGetCheckPointNum envRecFresh + 1) =
      some ([mutRecov] ++ [logCommitEntry]) ∧
    recoverBuildSheet envRecFresh =
      some ([mutRecov].foldl (fun s e => s.Set e.row e.col e.new)
        (NewMemSheet minRows minCols)) :=
  ⟨by decide,
    recover_rebuilds_checkpoint_plus_redo envRecFresh [mutRecov]
      (NewMemSheet minRows minCols) (by decide) (Or.inl ⟨by decide, rfl⟩)⟩

/-- The dirty, never-committed mutation of resident document 7. -/
def mutDirty : SheetLogPickle :=
  { lid := 1, row := 1, col := 1, old := "", new := "dirty" }

/-- Disk of document 7: no checkpoint yet, `log/1` holds one unsealed mutation. -/
def diskSeven : FidDisk where
  logNames := ["1"]
  chkpNames := []
  logs := fun n => if n = 1 then some [mutDirty] else none
  chkps := fun _ => none
  chkpCreateFails := false

/-- Disk of document 9: fresh document, `log/1` sealed and empty of mutations. -/
def diskNine : FidDisk where
  logNames := ["1"]
  chkpNames := []
  logs := fun n => if n = 1 then some [logCommitEntry] else none
  chkps := fun _ => none
  chkpCreateFails := false

/-- The dirty in-memory sheet of resident document 7. -/
def msSeven : MemSheet := { cells := [["dirty"]] }

/-- System state: capacity-1 cache holding document 7's dirty sheet; disks for
documents 7 and 9 as above. -/
def stEvict : SysState where
  disk := fun n => if n = 7 then diskSeven else diskNine
  cache := { capacity := 1, entries := [(7, msSeven)] }

/-- C4: the claim fails on the code. Recovering document 9 into the full
capacity-1 cache evicts resident document 7, but the source commits evicted
sheets only in the branch where Add returned a pre-existing sheet (part_000
lines 210-215) — and in that branch nothing was evicted. Here Add inserts 9
afresh and evicts 7, the else-branch returns (sheet 9, false), and document 7's
dirty state is dropped: its disk still has no checkpoint and its log is still
unsealed. The final conjunct shows committing 7 would have written
checkpoint 1, so the skipped commit is observable. -/
theorem recover_eviction_drops_dirty_sheet :
    (recoverSheetFromLog stEvict 9).1 =
      some (NewMemSheet minRows minCols, false) ∧
    ((recoverSheetFromLog stEvict 9).2.cache.entries.map fun p => p.1) = [9] ∧
    ((recoverSheetFromLog stEvict 9).2.disk 7).chkps 1 = none ∧
    ((recoverSheetFromLog stEvict 9).2.disk 7).logs 1 = some [mutDirty] ∧
    ((commitOneSheetWithCache stEvict 7 msSeven).2.disk 7).chkps 1 =
      some (mkCommitChkp 1 msSeven) := by decide

/-- Bytes of a file, as a character list (Go strings are byte strings; the
contents used here are ASCII). -/
abbrev FileBytes := List Char

/-- Overwrite `d` into `file` starting at byte offset `off`; the file grows as
needed (offsets past the end would pad with NUL, which no call here exercises). -/
def writeAt (file : FileBytes) (off : Nat) (d : FileBytes) : FileBytes :=
  List.take off file ++ List.replicate (off - List.length file) (Char.ofNat 0)
    ++ d ++ List.drop (off + List.length d) file

/-- Modelled from the spec: dfs.Write (backend/dfs, not in src/). The store
durably writes a positive prefix of the data it is handed and returns the byte
count written; `accept` is the store's choice for this call, clamped to at
least 1 and at most the data length. -/
def dfsWrite (file : FileBytes) (off : Nat) (data : FileBytes) (accept : Nat) :
    FileBytes × Nat :=
  let n := min (max accept 1) (List.length data)
  (writeAt file off (List.take n data), n)

/-- Embedding of the loop of dao writeAll (src part_000 lines 337-354). Each
iteration hands `content[:toWrite]` — a PREFIX of the original content — to
dfs.Write at the advancing offset and decreases toWrite by the count written;
the source never re-slices from the unwritten suffix. `oracle` lists the
store's per-call acceptance; once it is exhausted the store accepts everything,
so the final call writes all requested bytes and the loop exits with
toWrite = 0 (hence the source's post-loop shortfall check never fires). -/
def writeAllGo (file : FileBytes) (off toWrite : Nat) (content : FileBytes) :
    List Nat → FileBytes
  | [] => writeAt file off (List.take toWrite content)
  | a :: rest =>
    if toWrite = 0 then file
    else
      let r := dfsWrite file off (List.take toWrite content) a
      writeAllGo r.1 (off + r.2) (toWrite - r.2) content rest

/-- Embedding of dao writeAll (src part_000 lines 337-354): loop from the full
content length at the given offset. -/
def writeAll (file : FileBytes) (off : Nat) (content : FileBytes)
    (oracle : List Nat) : FileBytes :=
  writeAllGo file off (List.length content) content oracle

/-- Embedding of dao FileAppend (src part_000 lines 389-412): Stat the file for
its size, then writeAll the content at offset = size. The Stat/Open/Close error
paths and the directory guard do not arise for the plain files modelled here. -/
def FileAppend (file : FileBytes) (content : FileBytes) (oracle : List Nat) :
    FileBytes :=
  writeAll file (List.length file) content oracle

/-- Sanity check of the embedding: when the store accepts every byte in one
call (empty oracle), FileAppend appends exactly the content. -/
theorem fileAppend_full_acceptance (file content : FileBytes) :
    FileAppend file content [] = file ++ content := by
  simp [FileAppend, writeAll, writeAllGo, writeAt, FileBytes]

/-- C8: the claim fails on the code. Appending "abcd" to an empty file while
the store accepts only 2 bytes on the first call yields "abab": after the
partial write of "ab", the loop's next iteration hands `content[:2] = "ab"` —
the prefix already written — to dfs.Write at offset 2, instead of the suffix
"cd" (src part_000 line 340 slices `content[:toWrite]`). The appended bytes
are neither in order nor exactly once. -/
theorem fileAppend_partial_write_duplicates_prefix :
    FileAppend [] (['a', 'b', 'c', 'd'] : FileBytes) [2] =
      (['a', 'b', 'a', 'b'] : FileBytes) ∧
    FileAppend [] (['a', 'b', 'c', 'd'] : FileBytes) [2] ≠
      ([] : FileBytes) ++ ['a', 'b', 'c', 'd'] := by decide

/-- Directory entry metadata as returned by dfs.Scan (only the Name field is
read by DirFileNamesAll). -/
structure DfsFileInfo where
  name : String
deriving DecidableEq

/-- Embedding of dao DirFileNamesAll (src part_000 lines 448-459). The Go loop

  for i := 0; i < len(filenames); i += 1 \x7b
      filenames = append(filenames, fileInfos[i].Name)
  \x7d

iterates over the accumulator `filenames`, which starts empty, so the guard
`0 < 0` fails at once and the function returns an empty slice for every
listing (had the guard ever held, each iteration grows both i and
len(filenames) by one and the loop could never exit). The scan-error path
propagates the error. -/
def DirFileNamesAll (scan : Except Unit (List DfsFileInfo)) :
    Except Unit (List String) :=
  match scan with
  | Except.error e => Except.error e
  | Except.ok _ => Except.ok []

/-- Embedding of dao DirFilenamesAllSorted (src part_000 lines 461-470):
DirFileNamesAll, then sort.Strings on the result. -/
def DirFilenamesAllSorted (scan : Except Unit (List DfsFileInfo)) :
    Except Unit (List String) :=
  match DirFileNamesAll scan with
  | Except.error e => Except.error e
  | Except.ok filenames => Except.ok (sortStrings filenames)

/-- Modelled from the spec: the intended semantics of DirFileNamesAll
(spec 9 — iterate over the fetched listing): one name per entry, in order. -/
def dirFileNamesAllIntended (fileInfos : List DfsFileInfo) : List String :=
  fileInfos.map fun fi => fi.name

/-- Decidable equality of Except results, for evaluating the dao listing
functions on concrete inputs. -/
instance {a b : Type} [DecidableEq a] [DecidableEq b] : DecidableEq (Except a b) :=
  fun x y =>
    match x, y with
    | Except.error u, Except.error v =>
      if h : u = v then Decidable.isTrue (congrArg Except.error h)
      else Decidable.isFalse fun hc => h (Except.error.inj hc)
    | Except.ok u, Except.ok v =>
      if h : u = v then Decidable.isTrue (congrArg Except.ok h)
      else Decidable.isFalse fun hc => h (Except.ok.inj hc)
    | Except.error _, Except.ok _ => Decidable.isFalse fun hc => Except.noConfusion hc
    | Except.ok _, Except.error _ => Decidable.isFalse fun hc => Except.noConfusion hc

/-- C9: the claim (the intended semantics) fails on the code. On a directory
whose listing holds one file named "1", DirFileNamesAll returns the empty list
rather than one name per entry, and DirFilenamesAllSorted inherits the empty
result. -/
theorem dirFileNamesAll_returns_empty :
    DirFileNamesAll (Except.ok [{ name := "1" }]) = Except.ok [] ∧
    DirFilenamesAllSorted (Except.ok [{ name := "1" }]) = Except.ok [] ∧
    dirFileNamesAllIntended [{ name := "1" }] = ["1"] ∧
    DirFileNamesAll (Except.ok [{ name := "1" }]) ≠
      Except.ok (dirFileNamesAllIntended [{ name := "1" }]) := by decide
